import Mathlib

/-
Verification of the Tool-Server Connection & Resilience Manager
(`src/core/MCPClientManager.ts`): a shallow embedding of the session
store, the per-session circuit breaker, the retry/backoff loop of
`callTool`, and the introspection views, together with theorems about
the behaviour the specification ascribes to them.

Modelling notes:
* Timestamps (`Date.now()`) are natural numbers supplied as parameters:
  `now` is the clock value read by the circuit-breaker gate check, and
  `times i` is the clock value read when the failure of attempt `i` is
  recorded.
* The underlying transport call (`client.client.callTool`, an external
  library call) is modelled by an oracle `attempts : Nat → AttemptOutcome`
  giving the outcome of the i-th underlying attempt of one `callTool`
  invocation.
* The external connect + handshake + listTools sequence of
  `initializeClient` is modelled by an oracle
  `connect : String → Except String (List ToolDescriptor)`.
* The `Map<string, MCPClient>` registry is modelled as an association
  list with `Map.get`/`Map.set` semantics (`alookup` / `aset`).
* The error taxonomy of the specification names the four `throw` sites
  of `callTool`: `unknownServer`, `notConnected`, `circuitOpen` for the
  three fail-fast throws, and `toolCall` for the error propagated after
  the retry loop exhausts (it carries the message of the last recorded
  underlying error, exactly as `throw lastError` does).
-/

set_option linter.unusedVariables false

deriving instance DecidableEq for Except

namespace MCP

/-- Breaker state; the source strings are 'closed' | 'open' | 'half-open'. -/
inductive BreakerState
  | closed
  | opened
  | halfOpen
deriving DecidableEq, Repr

/-- Mutable per-session circuit-breaker record (`MCPClient.circuitBreaker`). -/
structure CircuitBreaker where
  failures : Nat
  lastFailureTime : Nat
  state : BreakerState
  nextRetryTime : Nat
deriving DecidableEq, Repr

/-- The zeroed breaker installed with every new session. -/
def initBreaker : CircuitBreaker :=
  { failures := 0, lastFailureTime := 0, state := .closed, nextRetryTime := 0 }

/-- Effective retry policy (all fields resolved). -/
structure RetryConfig where
  maxRetries : Nat
  retryDelay : Nat
  backoffMultiplier : Nat
  maxDelay : Nat
deriving DecidableEq, Repr

/-- `defaultRetryConfig` of `MCPClientManager`. -/
def defaultRetryConfig : RetryConfig :=
  { maxRetries := 3, retryDelay := 1000, backoffMultiplier := 2, maxDelay := 30000 }

/-- Effective circuit-breaker policy (all fields resolved). -/
structure CircuitBreakerConfig where
  failureThreshold : Nat
  resetTimeout : Nat
  monitoringPeriod : Nat
deriving DecidableEq, Repr

/-- `defaultCircuitBreakerConfig` of `MCPClientManager`. -/
def defaultCircuitBreakerConfig : CircuitBreakerConfig :=
  { failureThreshold := 5, resetTimeout := 60000, monitoringPeriod := 30000 }

/-- Per-server retry overrides (`MCPServerConfig.retryConfig`, optional fields). -/
structure RetryOverrides where
  maxRetries : Option Nat
  retryDelay : Option Nat
  backoffMultiplier : Option Nat
  maxDelay : Option Nat
deriving DecidableEq, Repr

/-- Per-server breaker overrides (`MCPServerConfig.circuitBreaker`, optional fields). -/
structure CircuitBreakerOverrides where
  failureThreshold : Option Nat
  resetTimeout : Option Nat
  monitoringPeriod : Option Nat
deriving DecidableEq, Repr

/-- The spread `{...this.defaultRetryConfig, ...client.config.retryConfig}`. -/
def effectiveRetryConfig : Option RetryOverrides → RetryConfig
  | none => defaultRetryConfig
  | some o =>
    { maxRetries := o.maxRetries.getD defaultRetryConfig.maxRetries
      retryDelay := o.retryDelay.getD defaultRetryConfig.retryDelay
      backoffMultiplier := o.backoffMultiplier.getD defaultRetryConfig.backoffMultiplier
      maxDelay := o.maxDelay.getD defaultRetryConfig.maxDelay }

/-- The spread `{...this.defaultCircuitBreakerConfig, ...client.config.circuitBreaker}`. -/
def effectiveCircuitConfig : Option CircuitBreakerOverrides → CircuitBreakerConfig
  | none => defaultCircuitBreakerConfig
  | some o =>
    { failureThreshold := o.failureThreshold.getD defaultCircuitBreakerConfig.failureThreshold
      resetTimeout := o.resetTimeout.getD defaultCircuitBreakerConfig.resetTimeout
      monitoringPeriod := o.monitoringPeriod.getD defaultCircuitBreakerConfig.monitoringPeriod }

/-- Transport kind: 'stdio' | 'sse'. -/
inductive TransportType
  | stdio
  | sse
deriving DecidableEq, Repr

/-- `MCPServerConfig` (fields relevant to control flow; `env`/`timeout`
are carried as data but never branched on by the modelled code). -/
structure MCPServerConfig where
  name : String
  type : TransportType
  command : Option String
  args : List String
  url : Option String
  env : List (String × String)
  timeout : Option Nat
  disabled : Bool
  retryConfig : Option RetryOverrides
  circuitBreaker : Option CircuitBreakerOverrides
deriving DecidableEq, Repr

/-- One discovered tool (name, description, input schema kept opaque). -/
structure ToolDescriptor where
  name : String
  description : String
  inputSchema : String
deriving DecidableEq, Repr

/-- A session (`MCPClient` of the source; the protocol-client and
transport handles are external and carry no modelled state). -/
structure MCPClient where
  connected : Bool
  tools : List ToolDescriptor
  config : MCPServerConfig
  circuitBreaker : CircuitBreaker
deriving DecidableEq, Repr

/-- The `Map<string, MCPClient>` registry. -/
abbrev ClientStore := List (String × MCPClient)

/-- `Map.get`: first binding of the name, if any. -/
def alookup {α : Type} : List (String × α) → String → Option α
  | [], _ => none
  | (m, v) :: rest, n => if m = n then some v else alookup rest n

/-- `Map.set`: replace the binding of the name, or append a new one. -/
def aset {α : Type} : List (String × α) → String → α → List (String × α)
  | [], n, v => [(n, v)]
  | (m, w) :: rest, n, v =>
    if m = n then (n, v) :: rest else (m, w) :: aset rest n v

/-- The session record installed by `initializeClient` on success:
`connected: true`, the discovered tools, the config, a zeroed breaker. -/
def newSession (config : MCPServerConfig) (tools : List ToolDescriptor) : MCPClient :=
  { connected := true, tools := tools, config := config, circuitBreaker := initBreaker }

/-- `initializeClient`: validates the transport configuration (stdio
requires `command`, sse requires `url`), then performs the external
connect + listTools (oracle `connect`); any failure is an error. -/
def initializeClient (connect : String → Except String (List ToolDescriptor))
    (name : String) (config : MCPServerConfig) : Except String MCPClient :=
  match config.type with
  | .stdio =>
    match config.command with
    | none => .error ("stdio server missing command: " ++ name)
    | some _ => (connect name).map (newSession config)
  | .sse =>
    match config.url with
    | none => .error ("sse server missing url: " ++ name)
    | some _ => (connect name).map (newSession config)

/-- One iteration of the `initializeClients` loop: skip disabled entries,
attempt `initializeClient`, catch and drop any failure. -/
def initStep (connect : String → Except String (List ToolDescriptor))
    (store : ClientStore) (entry : String × MCPServerConfig) : ClientStore :=
  if entry.2.disabled then store
  else
    match initializeClient connect entry.1 entry.2 with
    | .ok c => aset store entry.1 c
    | .error _ => store

/-- `initializeClients`: fold the per-server initialization over the
configuration entries, starting from the empty registry. -/
def initializeClients (connect : String → Except String (List ToolDescriptor))
    (configs : List (String × MCPServerConfig)) : ClientStore :=
  configs.foldl (initStep connect) []

/-- One row of `getServerStatus`. -/
structure ServerStatus where
  connected : Bool
  toolCount : Nat
  tools : List String
deriving DecidableEq, Repr

/-- `getServerStatus`: per session, the connected flag, tool count and
tool-name list. -/
def getServerStatus (store : ClientStore) : List (String × ServerStatus) :=
  store.map fun p =>
    (p.1, { connected := p.2.connected
            toolCount := p.2.tools.length
            tools := p.2.tools.map ToolDescriptor.name })

/-- `disconnectAll`: every transport is closed (`closeThrows n = true`
models `transport.close()` throwing for session `n`; the exception is
caught and only logged), then `this.clients.clear()` empties the
registry unconditionally.  Returns the emptied store and the names whose
close failed (the error log). -/
def disconnectAll (closeThrows : String → Bool) (store : ClientStore) :
    ClientStore × List String :=
  ([], (store.filter fun p => closeThrows p.1).map Prod.fst)

/-- `isCircuitBreakerOpen` (note: the source's `true` means "the call may
proceed").  An open breaker whose `nextRetryTime` has been reached
transitions to half-open with the failure count reset; an open breaker
whose retry time is not reached blocks; closed and half-open proceed
untouched. -/
def isCircuitBreakerOpen (now : Nat) (cb : CircuitBreaker) : Bool × CircuitBreaker :=
  match cb.state with
  | .opened =>
    if cb.nextRetryTime ≤ now then
      (true, { cb with state := .halfOpen, failures := 0 })
    else
      (false, cb)
  | _ => (true, cb)

/-- `recordFailure`: increment the failure count, stamp the failure time;
once the count reaches the threshold, open the breaker with
`nextRetryTime = now + resetTimeout`. -/
def recordFailure (cc : CircuitBreakerConfig) (now : Nat) (cb : CircuitBreaker) :
    CircuitBreaker :=
  let cb1 := { cb with failures := cb.failures + 1, lastFailureTime := now }
  if cc.failureThreshold ≤ cb1.failures then
    { cb1 with state := .opened, nextRetryTime := now + cc.resetTimeout }
  else
    cb1

/-- `resetCircuitBreakerInternal`: force the breaker to closed and zero
every counter and timestamp. -/
def resetCircuitBreakerInternal (cb : CircuitBreaker) : CircuitBreaker :=
  { cb with state := .closed, failures := 0, lastFailureTime := 0, nextRetryTime := 0 }

/-- Public `resetCircuitBreaker(serverName)`: reset if the server is
known, report whether it was. -/
def resetCircuitBreaker (store : ClientStore) (serverName : String) :
    Bool × ClientStore :=
  match alookup store serverName with
  | some c =>
    (true, aset store serverName
      { c with circuitBreaker := resetCircuitBreakerInternal c.circuitBreaker })
  | none => (false, store)

/-- The backoff delay slept after failed attempt `attempt`:
`Math.min(retryDelay * backoffMultiplier ** attempt, maxDelay)`. -/
def backoffDelay (rc : RetryConfig) (attempt : Nat) : Nat :=
  min (rc.retryDelay * rc.backoffMultiplier ^ attempt) rc.maxDelay

/-- Outcome of one underlying transport attempt (the external
`client.callTool`): a result payload or a thrown error message. -/
inductive AttemptOutcome
  | success (result : String)
  | failure (msg : String)
deriving DecidableEq, Repr

/-- Whether an attempt outcome is a failure. -/
def AttemptOutcome.isFailure : AttemptOutcome → Bool
  | .failure _ => true
  | .success _ => false

/-- The message carried by an attempt outcome. -/
def AttemptOutcome.msg : AttemptOutcome → String
  | .failure m => m
  | .success r => r

/-- Result of the retry loop: the value returned or the last recorded
error message, the final breaker, the number of underlying attempts
made, and the list of backoff delays slept (in order). -/
structure LoopResult where
  result : Except String String
  breaker : CircuitBreaker
  attemptsMade : Nat
  delays : List Nat
deriving DecidableEq, Repr

/-- The `for (attempt = 0; attempt <= maxRetries; attempt++)` loop of
`callTool`, with `remaining` iterations left and `attempt` the current
0-based index (so the loop is entered with `remaining = maxRetries + 1`,
`attempt = 0`).  On success the breaker is fully reset and the result
returned; on failure the failure is recorded and, if attempts remain,
the backoff delay is slept before retrying; when the loop exhausts the
last error is propagated. -/
def callLoop (rc : RetryConfig) (cc : CircuitBreakerConfig)
    (attempts : Nat → AttemptOutcome) (times : Nat → Nat) :
    Nat → Nat → CircuitBreaker → LoopResult
  | 0, _, cb => { result := .error "", breaker := cb, attemptsMade := 0, delays := [] }
  | remaining + 1, attempt, cb =>
    match attempts attempt with
    | .success r =>
      { result := .ok r, breaker := resetCircuitBreakerInternal cb
        attemptsMade := 1, delays := [] }
    | .failure m =>
      let cb2 := recordFailure cc (times attempt) cb
      if remaining = 0 then
        { result := .error m, breaker := cb2, attemptsMade := 1, delays := [] }
      else
        let rest := callLoop rc cc attempts times remaining (attempt + 1) cb2
        { result := rest.result, breaker := rest.breaker
          attemptsMade := rest.attemptsMade + 1
          delays := backoffDelay rc attempt :: rest.delays }

/-- The error taxonomy of `callTool`'s throw sites: unknown server, known
but not connected, breaker blocking, and the error propagated after the
retry loop exhausts (wrapping the last underlying message). -/
inductive CallError
  | unknownServer (server : String)
  | notConnected (server : String)
  | circuitOpen (server : String)
  | toolCall (msg : String)
deriving DecidableEq, Repr

/-- Observable outcome of one external `callTool` invocation. -/
structure CallOutcome where
  result : Except CallError String
  store : ClientStore
  attemptsMade : Nat
  delays : List Nat
deriving DecidableEq, Repr

/-- `callTool(serverName, toolName, args)`: look the session up, fail
fast when absent or not connected, run the gate check once, then run the
retry loop; the final breaker is the one left in the registry. -/
def callTool (store : ClientStore) (serverName toolName : String)
    (attempts : Nat → AttemptOutcome) (now : Nat) (times : Nat → Nat) : CallOutcome :=
  match alookup store serverName with
  | none =>
    { result := .error (.unknownServer serverName), store := store
      attemptsMade := 0, delays := [] }
  | some client =>
    if client.connected = false then
      { result := .error (.notConnected serverName), store := store
        attemptsMade := 0, delays := [] }
    else
      let gate := isCircuitBreakerOpen now client.circuitBreaker
      if gate.1 = false then
        { result := .error (.circuitOpen serverName)
          store := aset store serverName { client with circuitBreaker := gate.2 }
          attemptsMade := 0, delays := [] }
      else
        let rc := effectiveRetryConfig client.config.retryConfig
        let cc := effectiveCircuitConfig client.config.circuitBreaker
        let lr := callLoop rc cc attempts times (rc.maxRetries + 1) 0 gate.2
        { result := lr.result.mapError CallError.toolCall
          store := aset store serverName { client with circuitBreaker := lr.breaker }
          attemptsMade := lr.attemptsMade, delays := lr.delays }

/-- Every session of the registry carries `connected = true`. -/
def AllConnected (store : ClientStore) : Prop :=
  ∀ p ∈ store, p.2.connected = true

/-- Breaker states reachable, for a fixed per-session policy, from the
zeroed breaker of a fresh session through the operations of the manager:
failure recording, the gate check, and the (success-path or explicit)
reset. -/
inductive ReachableBreaker (cc : CircuitBreakerConfig) : CircuitBreaker → Prop
  | init : ReachableBreaker cc initBreaker
  | fail (now : Nat) {cb : CircuitBreaker} :
      ReachableBreaker cc cb → ReachableBreaker cc (recordFailure cc now cb)
  | gate (now : Nat) {cb : CircuitBreaker} :
      ReachableBreaker cc cb → ReachableBreaker cc (isCircuitBreakerOpen now cb).2
  | reset {cb : CircuitBreaker} :
      ReachableBreaker cc cb → ReachableBreaker cc (resetCircuitBreakerInternal cb)

/-- The specification's breaker invariant: an open breaker's retry time
lies strictly after its last failure, and a closed breaker's failure
count is zero or strictly below the opening threshold. -/
def breakerInvariant (cc : CircuitBreakerConfig) (cb : CircuitBreaker) : Prop :=
  (cb.state = .opened → cb.lastFailureTime < cb.nextRetryTime) ∧
  (cb.state = .closed → cb.failures = 0 ∨ cb.failures < cc.failureThreshold)

/-! ### Association-list helper lemmas -/

theorem alookup_mem {α : Type} {s : List (String × α)} {n : String} {v : α}
    (h : alookup s n = some v) : (n, v) ∈ s := by
  induction s with
  | nil => simp [alookup] at h
  | cons p rest ih =>
    obtain ⟨m, w⟩ := p
    by_cases hm : m = n
    · subst hm
      simp [alookup] at h
      subst h
      exact List.mem_cons_self _ _
    · simp [alookup, hm] at h
      exact List.mem_cons_of_mem _ (ih h)

theorem aset_self {α : Type} {s : List (String × α)} {n : String} {v : α}
    (h : alookup s n = some v) : aset s n v = s := by
  induction s with
  | nil => simp [alookup] at h
  | cons p rest ih =>
    obtain ⟨m, w⟩ := p
    by_cases hm : m = n
    · subst hm
      simp [alookup] at h
      simp [aset, h]
    · simp [alookup, hm] at h
      simp [aset, hm, ih h]

theorem alookup_aset_self {α : Type} (s : List (String × α)) (n : String) (v : α) :
    alookup (aset s n v) n = some v := by
  induction s with
  | nil => simp [alookup, aset]
  | cons p rest ih =>
    obtain ⟨m, w⟩ := p
    by_cases hm : m = n
    · simp [alookup, aset, hm]
    · simp [alookup, aset, hm, ih]

theorem alookup_aset_ne {α : Type} (s : List (String × α)) {m n : String} (v : α)
    (h : m ≠ n) : alookup (aset s m v) n = alookup s n := by
  induction s with
  | nil => simp [alookup, aset, h]
  | cons p rest ih =>
    obtain ⟨k, w⟩ := p
    by_cases hk : k = m
    · subst hk
      simp [alookup, aset, h]
    · simp [alookup, aset, hk, ih]

/-! ### Gate-check helper lemmas -/

theorem gate_blocked {now : Nat} {cb : CircuitBreaker}
    (hst : cb.state = .opened) (ht : now < cb.nextRetryTime) :
    isCircuitBreakerOpen now cb = (false, cb) := by
  simp [isCircuitBreakerOpen, hst, Nat.not_le.mpr ht]

theorem gate_probe {now : Nat} {cb : CircuitBreaker}
    (hst : cb.state = .opened) (ht : cb.nextRetryTime ≤ now) :
    isCircuitBreakerOpen now cb =
      (true, { cb with state := .halfOpen, failures := 0 }) := by
  simp [isCircuitBreakerOpen, hst, ht]

theorem resetInternal_eq_initBreaker (cb : CircuitBreaker) :
    resetCircuitBreakerInternal cb = initBreaker := rfl

/-! ### Retry-loop helper lemmas -/

theorem callLoop_breaker_blind (rc : RetryConfig) (cc : CircuitBreakerConfig)
    (attempts : Nat → AttemptOutcome) (times : Nat → Nat) :
    ∀ (r a : Nat) (cb1 cb2 : CircuitBreaker),
      (callLoop rc cc attempts times r a cb1).result =
        (callLoop rc cc attempts times r a cb2).result ∧
      (callLoop rc cc attempts times r a cb1).attemptsMade =
        (callLoop rc cc attempts times r a cb2).attemptsMade ∧
      (callLoop rc cc attempts times r a cb1).delays =
        (callLoop rc cc attempts times r a cb2).delays := by
  intro r
  induction r with
  | zero => intro a cb1 cb2; simp [callLoop]
  | succ r ih =>
    intro a cb1 cb2
    cases h : attempts a with
    | success v => simp [callLoop, h]
    | failure m =>
      by_cases hr : r = 0
      · subst hr; simp [callLoop, h]
      · have h3 := ih (a + 1) (recordFailure cc (times a) cb1)
          (recordFailure cc (times a) cb2)
        simp only [callLoop, h, hr, if_false]
        exact ⟨h3.1, by rw [h3.2.1], by rw [h3.2.2]⟩

theorem callLoop_attempts_le (rc : RetryConfig) (cc : CircuitBreakerConfig)
    (attempts : Nat → AttemptOutcome) (times : Nat → Nat) :
    ∀ (r a : Nat) (cb : CircuitBreaker),
      (callLoop rc cc attempts times r a cb).attemptsMade ≤ r := by
  intro r
  induction r with
  | zero => intro a cb; simp [callLoop]
  | succ r ih =>
    intro a cb
    cases h : attempts a with
    | success v => simp [callLoop, h]
    | failure m =>
      by_cases hr : r = 0
      · subst hr; simp [callLoop, h]
      · simp only [callLoop, h, hr, if_false]
        exact Nat.succ_le_succ (ih (a + 1) _)

theorem callLoop_attempts_pos (rc : RetryConfig) (cc : CircuitBreakerConfig)
    (attempts : Nat → AttemptOutcome) (times : Nat → Nat)
    (r a : Nat) (cb : CircuitBreaker) :
    1 ≤ (callLoop rc cc attempts times (r + 1) a cb).attemptsMade := by
  cases h : attempts a with
  | success v => simp [callLoop, h]
  | failure m =>
    by_cases hr : r = 0
    · subst hr; simp [callLoop, h]
    · simp only [callLoop, h, hr, if_false]
      exact Nat.succ_le_succ (Nat.zero_le _)

theorem callLoop_all_fail (rc : RetryConfig) (cc : CircuitBreakerConfig)
    (attempts : Nat → AttemptOutcome) (times : Nat → Nat) :
    ∀ (r a : Nat) (cb : CircuitBreaker),
      (∀ i, i < r → (attempts (a + i)).isFailure = true) →
      (callLoop rc cc attempts times r a cb).attemptsMade = r := by
  intro r
  induction r with
  | zero => intro a cb _; simp [callLoop]
  | succ r ih =>
    intro a cb hfail
    cases h : attempts a with
    | success v =>
      have h0 := hfail 0 (Nat.succ_pos r)
      rw [Nat.add_zero, h] at h0
      simp [AttemptOutcome.isFailure] at h0
    | failure m =>
      by_cases hr : r = 0
      · subst hr; simp [callLoop, h]
      · have hrest : ∀ i, i < r → (attempts (a + 1 + i)).isFailure = true := by
          intro i hi
          have := hfail (i + 1) (Nat.succ_lt_succ hi)
          rwa [show a + (i + 1) = a + 1 + i by omega] at this
        simp only [callLoop, h, hr, if_false]
        rw [ih (a + 1) _ hrest]

theorem callLoop_last_error (rc : RetryConfig) (cc : CircuitBreakerConfig)
    (attempts : Nat → AttemptOutcome) (times : Nat → Nat) (msgs : Nat → String) :
    ∀ (r a : Nat) (cb : CircuitBreaker), 0 < r →
      (∀ i, i < r → attempts (a + i) = .failure (msgs (a + i))) →
      (callLoop rc cc attempts times r a cb).result = .error (msgs (a + r - 1)) := by
  intro r
  induction r with
  | zero => intro a cb h; omega
  | succ r ih =>
    intro a cb _ hfail
    have h0 := hfail 0 (Nat.succ_pos r)
    rw [Nat.add_zero] at h0
    by_cases hr : r = 0
    · subst hr
      simp [callLoop, h0]
    · have hrest : ∀ i, i < r → attempts (a + 1 + i) = .failure (msgs (a + 1 + i)) := by
        intro i hi
        have := hfail (i + 1) (Nat.succ_lt_succ hi)
        rwa [show a + (i + 1) = a + 1 + i by omega] at this
      have hres := ih (a + 1) (recordFailure cc (times a) cb) (Nat.pos_of_ne_zero hr) hrest
      simp only [callLoop, h0, hr, if_false]
      rw [hres, show a + 1 + r - 1 = a + (r + 1) - 1 by omega]

theorem callLoop_first_success (rc : RetryConfig) (cc : CircuitBreakerConfig)
    (attempts : Nat → AttemptOutcome) (times : Nat → Nat) (v : String) :
    ∀ (k r a : Nat) (cb : CircuitBreaker), k < r →
      (∀ j, j < k → (attempts (a + j)).isFailure = true) →
      attempts (a + k) = .success v →
      (callLoop rc cc attempts times r a cb).result = .ok v ∧
      (callLoop rc cc attempts times r a cb).breaker = initBreaker ∧
      (callLoop rc cc attempts times r a cb).attemptsMade = k + 1 := by
  intro k
  induction k with
  | zero =>
    intro r a cb hk _ hsucc
    rw [Nat.add_zero] at hsucc
    match r, hk with
    | r + 1, _ => simp [callLoop, hsucc, resetInternal_eq_initBreaker]
  | succ k ih =>
    intro r a cb hk hfail hsucc
    match r, hk with
    | r + 1, hk =>
      have h0 := hfail 0 (Nat.succ_pos k)
      rw [Nat.add_zero] at h0
      cases h : attempts a with
      | success w => rw [h] at h0; simp [AttemptOutcome.isFailure] at h0
      | failure m =>
        have hr : r ≠ 0 := by omega
        have hrest : ∀ j, j < k → (attempts (a + 1 + j)).isFailure = true := by
          intro j hj
          have := hfail (j + 1) (Nat.succ_lt_succ hj)
          rwa [show a + (j + 1) = a + 1 + j by omega] at this
        have hsucc2 : attempts (a + 1 + k) = .success v := by
          rwa [show a + 1 + k = a + (k + 1) by omega]
        have hres := ih r (a + 1) (recordFailure cc (times a) cb)
          (by omega) hrest hsucc2
        simp only [callLoop, h, hr, if_false]
        exact ⟨hres.1, hres.2.1, by rw [hres.2.2]⟩

theorem callLoop_delays_spec (rc : RetryConfig) (cc : CircuitBreakerConfig)
    (attempts : Nat → AttemptOutcome) (times : Nat → Nat) :
    ∀ (r a : Nat) (cb : CircuitBreaker),
      (callLoop rc cc attempts times r a cb).delays =
        (List.range ((callLoop rc cc attempts times r a cb).attemptsMade - 1)).map
          (fun j => backoffDelay rc (a + j)) := by
  intro r
  induction r with
  | zero => intro a cb; simp [callLoop]
  | succ r ih =>
    intro a cb
    cases h : attempts a with
    | success v => simp [callLoop, h]
    | failure m =>
      by_cases hr : r = 0
      · subst hr; simp [callLoop, h]
      · simp only [callLoop, h, hr, if_false]
        obtain ⟨r2, hr2⟩ := Nat.exists_eq_succ_of_ne_zero hr
        have hpos : 1 ≤ (callLoop rc cc attempts times r (a + 1)
            (recordFailure cc (times a) cb)).attemptsMade := by
          rw [hr2]; exact callLoop_attempts_pos ..
        obtain ⟨t, ht⟩ := Nat.exists_eq_add_of_le hpos
        rw [ih (a + 1), ht]
        simp only [Nat.add_sub_cancel, Nat.add_sub_cancel_left,
          show 1 + t + 1 - 1 = t + 1 by omega]
        rw [List.range_succ_eq_map]
        simp only [List.map_cons, List.map_map, Nat.add_zero]
        congr 1
        refine List.map_congr_left ?_
        intro j _
        simp only [Function.comp]
        congr 1
        omega

/-! ### Breaker-invariant preservation -/

/-- Strengthening of the invariant needed for preservation: a breaker
only ever opens once its failure count has reached the threshold. -/
def breakerInvariantAux (cc : CircuitBreakerConfig) (cb : CircuitBreaker) : Prop :=
  breakerInvariant cc cb ∧ (cb.state = .opened → cc.failureThreshold ≤ cb.failures)

theorem initBreaker_invariantAux (cc : CircuitBreakerConfig) :
    breakerInvariantAux cc initBreaker := by
  refine ⟨⟨?_, ?_⟩, ?_⟩ <;> intro h <;> simp_all [initBreaker, breakerInvariant]

theorem recordFailure_invariantAux {cc : CircuitBreakerConfig} {cb : CircuitBreaker}
    (hrt : 0 < cc.resetTimeout) (ih : breakerInvariantAux cc cb) (now : Nat) :
    breakerInvariantAux cc (recordFailure cc now cb) := by
  unfold breakerInvariantAux breakerInvariant at ih ⊢
  unfold recordFailure
  by_cases hth : cc.failureThreshold ≤ cb.failures + 1
  · simp only [hth, if_pos]
    refine ⟨⟨?_, ?_⟩, ?_⟩ <;> intro h <;> simp_all
  · simp only [hth, if_neg, not_false_iff]
    refine ⟨⟨?_, ?_⟩, ?_⟩ <;> intro h <;> simp_all <;> omega

theorem gate_invariantAux {cc : CircuitBreakerConfig} {cb : CircuitBreaker}
    (ih : breakerInvariantAux cc cb) (now : Nat) :
    breakerInvariantAux cc (isCircuitBreakerOpen now cb).2 := by
  unfold isCircuitBreakerOpen
  cases hst : cb.state with
  | opened =>
    by_cases ht : cb.nextRetryTime ≤ now
    · simp only [ht, if_pos]
      refine ⟨⟨?_, ?_⟩, ?_⟩ <;> intro h <;> simp_all [breakerInvariantAux, breakerInvariant]
    · simp only [ht, if_neg, not_false_iff]
      exact ih
  | closed => exact ih
  | halfOpen => exact ih

theorem resetInternal_invariantAux (cc : CircuitBreakerConfig) (cb : CircuitBreaker) :
    breakerInvariantAux cc (resetCircuitBreakerInternal cb) := by
  refine ⟨⟨?_, ?_⟩, ?_⟩ <;> intro h <;>
    simp_all [resetCircuitBreakerInternal, breakerInvariant]

theorem reachable_invariantAux {cc : CircuitBreakerConfig} {cb : CircuitBreaker}
    (hrt : 0 < cc.resetTimeout) (h : ReachableBreaker cc cb) :
    breakerInvariantAux cc cb := by
  induction h with
  | init => exact initBreaker_invariantAux cc
  | fail now _ ih => exact recordFailure_invariantAux hrt ih now
  | gate now _ ih => exact gate_invariantAux ih now
  | reset _ ih => exact resetInternal_invariantAux cc _

/-! ### Connected-flag helper lemmas -/

theorem mem_aset {α : Type} {s : List (String × α)} {n : String} {v : α}
    {p : String × α} (h : p ∈ aset s n v) : p = (n, v) ∨ p ∈ s := by
  induction s with
  | nil =>
    simp [aset] at h
    simp [h]
  | cons q rest ih =>
    obtain ⟨m, w⟩ := q
    by_cases hm : m = n
    · simp only [aset, hm, if_pos, List.mem_cons] at h
      rcases h with h | h
      · exact Or.inl h
      · exact Or.inr (List.mem_cons_of_mem _ h)
    · simp only [aset, hm, if_neg, not_false_iff, List.mem_cons] at h
      rcases h with h | h
      · exact Or.inr (by simp [h])
      · rcases ih h with h2 | h2
        · exact Or.inl h2
        · exact Or.inr (List.mem_cons_of_mem _ h2)

theorem allConnected_aset {store : ClientStore} {c : MCPClient} {n : String}
    (hs : AllConnected store) (hc : c.connected = true) :
    AllConnected (aset store n c) := by
  intro p hp
  rcases mem_aset hp with h | h
  · rw [h]
    exact hc
  · exact hs p h

theorem initializeClient_connected {connect : String → Except String (List ToolDescriptor)}
    {n : String} {cfg : MCPServerConfig} {c : MCPClient}
    (h : initializeClient connect n cfg = .ok c) : c.connected = true := by
  unfold initializeClient at h
  cases htype : cfg.type <;> rw [htype] at h
  · cases hcmd : cfg.command <;> rw [hcmd] at h
    · simp at h
    · cases hcon : connect n <;> rw [hcon] at h <;> simp [Except.map] at h
      rw [← h]
      rfl
  · cases hurl : cfg.url <;> rw [hurl] at h
    · simp at h
    · cases hcon : connect n <;> rw [hcon] at h <;> simp [Except.map] at h
      rw [← h]
      rfl

theorem allConnected_initStep (connect : String → Except String (List ToolDescriptor))
    {store : ClientStore} (hs : AllConnected store) (e : String × MCPServerConfig) :
    AllConnected (initStep connect store e) := by
  unfold initStep
  by_cases hd : e.2.disabled
  · simp only [hd, if_pos]
    exact hs
  · simp only [hd, if_neg, not_false_iff]
    cases hi : initializeClient connect e.1 e.2 with
    | ok c => exact allConnected_aset hs (initializeClient_connected hi)
    | error _ => exact hs

theorem allConnected_foldl (connect : String → Except String (List ToolDescriptor)) :
    ∀ (configs : List (String × MCPServerConfig)) (store : ClientStore),
      AllConnected store → AllConnected (configs.foldl (initStep connect) store) := by
  intro configs
  induction configs with
  | nil => intro store hs; exact hs
  | cons e rest ih =>
    intro store hs
    exact ih _ (allConnected_initStep connect hs e)

theorem allConnected_nil : AllConnected ([] : ClientStore) := by
  intro p hp
  cases hp

/-! ### Initialization characterization -/

theorem alookup_initStep_ne (connect : String → Except String (List ToolDescriptor))
    {e : String × MCPServerConfig} {n : String} (h : e.1 ≠ n) (store : ClientStore) :
    alookup (initStep connect store e) n = alookup store n := by
  unfold initStep
  by_cases hd : e.2.disabled
  · simp [hd]
  · simp only [hd, if_neg, not_false_iff]
    cases initializeClient connect e.1 e.2 with
    | ok c => exact alookup_aset_ne store c h
    | error _ => rfl

theorem foldl_initStep_not_mem (connect : String → Except String (List ToolDescriptor)) :
    ∀ (configs : List (String × MCPServerConfig)) (store : ClientStore) (n : String),
      n ∉ configs.map Prod.fst →
      alookup (configs.foldl (initStep connect) store) n = alookup store n := by
  intro configs
  induction configs with
  | nil => intro store n _; rfl
  | cons e rest ih =>
    intro store n hn
    simp only [List.map_cons, List.mem_cons] at hn
    push_neg at hn
    rw [List.foldl_cons, ih _ n hn.2]
    exact alookup_initStep_ne connect (fun h => hn.1 h.symm) store

theorem foldl_initStep_mem (connect : String → Except String (List ToolDescriptor)) :
    ∀ (configs : List (String × MCPServerConfig)) (store : ClientStore)
      (name : String) (cfg : MCPServerConfig),
      (configs.map Prod.fst).Nodup → (name, cfg) ∈ configs →
      alookup (configs.foldl (initStep connect) store) name =
        (if cfg.disabled = true then alookup store name
         else
           match initializeClient connect name cfg with
           | .ok c => some c
           | .error _ => alookup store name) := by
  intro configs
  induction configs with
  | nil => intro store name cfg _ hmem; cases hmem
  | cons e rest ih =>
    intro store name cfg hnd hmem
    simp only [List.map_cons, List.nodup_cons] at hnd
    rcases List.mem_cons.1 hmem with heq | hmem2
    · subst heq
      rw [List.foldl_cons, foldl_initStep_not_mem connect rest _ name hnd.1]
      unfold initStep
      by_cases hd : cfg.disabled
      · simp [hd]
      · simp only [hd, if_neg, not_false_iff, Bool.false_eq_true]
        cases initializeClient connect name cfg with
        | ok c => exact alookup_aset_self store name c
        | error _ => rfl
    · have hne : e.1 ≠ name := by
        intro hcontra
        exact hnd.1 (hcontra ▸ List.mem_map_of_mem Prod.fst hmem2)
      rw [List.foldl_cons, ih _ name cfg hnd.2 hmem2,
        alookup_initStep_ne connect hne store]

theorem alookup_getServerStatus_none {store : ClientStore} {n : String}
    (h : alookup store n = none) : alookup (getServerStatus store) n = none := by
  induction store with
  | nil => rfl
  | cons p rest ih =>
    obtain ⟨m, c⟩ := p
    by_cases hm : m = n
    · simp [alookup, hm] at h
    · simp only [alookup, hm, if_neg, not_false_iff] at h
      simp only [getServerStatus, List.map_cons]
      simpa [alookup, hm] using ih h

/-! ### callTool unfolding helpers -/

theorem callTool_proceed {store : ClientStore} {s : String} (tool : String)
    (attempts : Nat → AttemptOutcome) (now : Nat) (times : Nat → Nat)
    {c : MCPClient} (hc : alookup store s = some c) (hconn : c.connected = true)
    (hgate : (isCircuitBreakerOpen now c.circuitBreaker).1 = true) :
    callTool store s tool attempts now times =
      { result := (callLoop (effectiveRetryConfig c.config.retryConfig)
            (effectiveCircuitConfig c.config.circuitBreaker) attempts times
            ((effectiveRetryConfig c.config.retryConfig).maxRetries + 1) 0
            (isCircuitBreakerOpen now c.circuitBreaker).2).result.mapError CallError.toolCall
        store := aset store s
          { c with circuitBreaker := (callLoop (effectiveRetryConfig c.config.retryConfig)
              (effectiveCircuitConfig c.config.circuitBreaker) attempts times
              ((effectiveRetryConfig c.config.retryConfig).maxRetries + 1) 0
              (isCircuitBreakerOpen now c.circuitBreaker).2).breaker }
        attemptsMade := (callLoop (effectiveRetryConfig c.config.retryConfig)
            (effectiveCircuitConfig c.config.circuitBreaker) attempts times
            ((effectiveRetryConfig c.config.retryConfig).maxRetries + 1) 0
            (isCircuitBreakerOpen now c.circuitBreaker).2).attemptsMade
        delays := (callLoop (effectiveRetryConfig c.config.retryConfig)
            (effectiveCircuitConfig c.config.circuitBreaker) attempts times
            ((effectiveRetryConfig c.config.retryConfig).maxRetries + 1) 0
            (isCircuitBreakerOpen now c.circuitBreaker).2).delays } := by
  unfold callTool
  rw [hc]
  simp [hconn, hgate]

theorem callTool_preserves_allConnected {store : ClientStore} {s : String}
    (tool : String) (attempts : Nat → AttemptOutcome) (now : Nat) (times : Nat → Nat)
    (hs : AllConnected store) :
    AllConnected (callTool store s tool attempts now times).store := by
  unfold callTool
  cases hc : alookup store s with
  | none => exact hs
  | some c =>
    have hcc : c.connected = true := hs _ (alookup_mem hc)
    simp only [hcc, Bool.true_eq_false, if_false]
    by_cases hg : (isCircuitBreakerOpen now c.circuitBreaker).1 = false
    · simp only [hg, if_pos]
      exact allConnected_aset hs rfl
    · simp only [hg, if_neg, not_false_iff]
      exact allConnected_aset hs rfl

theorem callTool_no_notConnected {store : ClientStore} {s : String}
    (tool : String) (attempts : Nat → AttemptOutcome) (now : Nat) (times : Nat → Nat)
    (hs : AllConnected store) (n : String) :
    (callTool store s tool attempts now times).result ≠
      .error (.notConnected n) := by
  unfold callTool
  cases hc : alookup store s with
  | none => simp
  | some c =>
    have hcc : c.connected = true := hs _ (alookup_mem hc)
    simp only [hcc, Bool.true_eq_false, if_false]
    by_cases hg : (isCircuitBreakerOpen now c.circuitBreaker).1 = false
    · simp [hg]
    · simp only [hg, if_neg, not_false_iff]
      cases hres : (callLoop (effectiveRetryConfig c.config.retryConfig)
          (effectiveCircuitConfig c.config.circuitBreaker) attempts times
          ((effectiveRetryConfig c.config.retryConfig).maxRetries + 1) 0
          (isCircuitBreakerOpen now c.circuitBreaker).2).result with
      | ok v => simp [hres, Except.mapError]
      | error m => simp [hres, Except.mapError]

/-! ### Concrete fixtures for witnesses and counterexamples -/

/-- A plain stdio server configuration using the default policies. -/
def demoConfig : MCPServerConfig :=
  { name := "alpha", type := .stdio, command := some "npx", args := ["server"]
    url := none, env := [], timeout := none, disabled := false
    retryConfig := none, circuitBreaker := none }

/-- A tool exposed by the demo server. -/
def demoTool : ToolDescriptor :=
  { name := "t1", description := "demo tool", inputSchema := "{}" }

/-- A connected session with a closed, zeroed breaker. -/
def demoClient : MCPClient :=
  { connected := true, tools := [demoTool], config := demoConfig
    circuitBreaker := initBreaker }

/-- A connected session whose breaker is open until time 200. -/
def demoClientOpen : MCPClient :=
  { connected := true, tools := [demoTool], config := demoConfig
    circuitBreaker :=
      { failures := 5, lastFailureTime := 100, state := .opened, nextRetryTime := 200 } }

/-- Registry containing the closed-breaker demo session. -/
def demoStore : ClientStore := [("alpha", demoClient)]

/-- Registry containing the open-breaker demo session. -/
def demoStoreOpen : ClientStore := [("alpha", demoClientOpen)]

/-- Server configuration with tight overrides: threshold 1, one retry. -/
def cexConfig : MCPServerConfig :=
  { name := "beta", type := .stdio, command := some "npx", args := []
    url := none, env := [], timeout := none, disabled := false
    retryConfig := some { maxRetries := some 1, retryDelay := some 10
                          backoffMultiplier := some 2, maxDelay := some 1000 }
    circuitBreaker := some { failureThreshold := some 1, resetTimeout := some 100
                             monitoringPeriod := none } }

/-- The effective retry policy of `cexConfig`. -/
def cexRetry : RetryConfig := effectiveRetryConfig cexConfig.retryConfig

/-- The effective breaker policy of `cexConfig`. -/
def cexBreakerCfg : CircuitBreakerConfig := effectiveCircuitConfig cexConfig.circuitBreaker

/-- Attempt oracle: the first underlying attempt fails, every later one succeeds. -/
def cexAttempts : Nat → AttemptOutcome :=
  fun i => if i = 0 then .failure "boom" else .success "recovered"

/-- Registry with the tight-policy session and a closed, zeroed breaker. -/
def cexStore : ClientStore :=
  [("beta", { connected := true, tools := [demoTool], config := cexConfig
              circuitBreaker := initBreaker })]

theorem getServerStatus_connected {store : ClientStore} (hs : AllConnected store) :
    ∀ p ∈ getServerStatus store, p.2.connected = true := by
  intro p hp
  obtain ⟨q, hq, rfl⟩ := List.mem_map.1 hp
  exact hs q hq

/-! ### Claim theorems -/

/-- Claim C1: for every session and every failed underlying attempt,
`recordFailure` increments the failure count and stamps
`lastFailureTime` with the current time; when the count reaches
`failureThreshold`, the breaker state becomes open with
`nextRetryTime` = the tripping failure's time + `resetTimeout`. -/
theorem C1_recordFailure_spec (cc : CircuitBreakerConfig) (now : Nat)
    (cb : CircuitBreaker) :
    (recordFailure cc now cb).failures = cb.failures + 1 ∧
    (recordFailure cc now cb).lastFailureTime = now ∧
    (cc.failureThreshold ≤ cb.failures + 1 →
      (recordFailure cc now cb).state = .opened ∧
      (recordFailure cc now cb).nextRetryTime = now + cc.resetTimeout) := by
  unfold recordFailure
  by_cases hth : cc.failureThreshold ≤ cb.failures + 1 <;> simp [hth]

/-- Witness for C1: the 5th consecutive failure (default threshold 5)
at time 7 opens the breaker with retry time 7 + 60000. -/
theorem C1_recordFailure_spec_witness :
    (recordFailure defaultCircuitBreakerConfig 7
      { failures := 4, lastFailureTime := 2, state := .closed, nextRetryTime := 0 }).state
        = .opened ∧
    (recordFailure defaultCircuitBreakerConfig 7
      { failures := 4, lastFailureTime := 2, state := .closed, nextRetryTime := 0 }).nextRetryTime
        = 7 + 60000 :=
  (C1_recordFailure_spec defaultCircuitBreakerConfig 7
    { failures := 4, lastFailureTime := 2, state := .closed, nextRetryTime := 0 }).2.2
    (by decide)

/-- Claim C2: with the breaker open and `now` strictly before
`nextRetryTime`, `callTool` fails immediately with the circuit-open
error, performs zero underlying attempts, sleeps no delays, and leaves
the registry — hence the session's breaker — unchanged. -/
theorem C2_circuitOpen_blocks (store : ClientStore) (s tool : String)
    (attempts : Nat → AttemptOutcome) (now : Nat) (times : Nat → Nat)
    (c : MCPClient) (hc : alookup store s = some c) (hconn : c.connected = true)
    (hst : c.circuitBreaker.state = .opened)
    (ht : now < c.circuitBreaker.nextRetryTime) :
    callTool store s tool attempts now times =
      { result := .error (.circuitOpen s), store := store
        attemptsMade := 0, delays := [] } := by
  unfold callTool
  rw [hc]
  have hgate := gate_blocked hst ht
  simp only [hconn, Bool.true_eq_false, if_false, hgate]
  have heta : MCPClient.mk true c.tools c.config c.circuitBreaker = c := by
    rw [← hconn]
  rw [if_pos trivial, heta, aset_self hc]

/-- Witness for C2: at time 150 the demo session's breaker (open until
200) blocks the call outright. -/
theorem C2_circuitOpen_blocks_witness :
    callTool demoStoreOpen "alpha" "t1" cexAttempts 150 (fun _ => 150) =
      { result := .error (.circuitOpen "alpha"), store := demoStoreOpen
        attemptsMade := 0, delays := [] } :=
  C2_circuitOpen_blocks demoStoreOpen "alpha" "t1" cexAttempts 150 (fun _ => 150)
    demoClientOpen (by decide) (by decide) (by decide) (by decide)

/-- Counterexample to claim C3's final conjunct ("the gate check is the
sole path out of the open state short of an explicit reset"): with
`failureThreshold = 1` and `maxRetries = 1`, the first failed attempt of
a single `callTool` invocation opens the breaker mid-retry-loop, and the
same invocation's second attempt succeeds and resets the breaker to
closed — a transition out of the open state that is neither the gate
check nor an explicit reset.  The last two conjuncts evaluate the full
external call on `cexStore`. -/
theorem C3_counterexample :
    (recordFailure cexBreakerCfg 60 initBreaker).state = .opened ∧
    (callLoop cexRetry cexBreakerCfg cexAttempts (fun _ => 60) 1 1
      (recordFailure cexBreakerCfg 60 initBreaker)).breaker.state = .closed ∧
    (callLoop cexRetry cexBreakerCfg cexAttempts (fun _ => 60) 1 1
      (recordFailure cexBreakerCfg 60 initBreaker)).result = .ok "recovered" ∧
    (callTool cexStore "beta" "t1" cexAttempts 0 (fun _ => 60)).result = .ok "recovered" ∧
    (alookup (callTool cexStore "beta" "t1" cexAttempts 0 (fun _ => 60)).store "beta").map
      (fun c => c.circuitBreaker.state) = some .closed := by
  exact ⟨rfl, rfl, rfl, rfl, rfl⟩

/-- Claim C3 (amended): with the breaker open and `nextRetryTime`
reached, `callTool` transitions the breaker to half-open with the
failure count reset to 0 before any transport attempt, and at least one
attempt is then made; the gate check happens exactly once per external
invocation — the retry loop never consults the breaker, so the loop's
result, attempt count and delays are independent of the breaker value —
and `recordFailure` never leaves the open state, so the gate transition
is the sole non-reset path out of open. -/
theorem C3_amended_probe_once (store : ClientStore) (s tool : String)
    (attempts : Nat → AttemptOutcome) (now : Nat) (times : Nat → Nat)
    (c : MCPClient) (hc : alookup store s = some c) (hconn : c.connected = true)
    (hst : c.circuitBreaker.state = .opened)
    (ht : c.circuitBreaker.nextRetryTime ≤ now) :
    (isCircuitBreakerOpen now c.circuitBreaker).2 =
      { c.circuitBreaker with state := .halfOpen, failures := 0 } ∧
    callTool store s tool attempts now times =
      { result := (callLoop (effectiveRetryConfig c.config.retryConfig)
            (effectiveCircuitConfig c.config.circuitBreaker) attempts times
            ((effectiveRetryConfig c.config.retryConfig).maxRetries + 1) 0
            { c.circuitBreaker with state := .halfOpen, failures := 0 }).result.mapError
            CallError.toolCall
        store := aset store s
          { c with circuitBreaker := (callLoop (effectiveRetryConfig c.config.retryConfig)
              (effectiveCircuitConfig c.config.circuitBreaker) attempts times
              ((effectiveRetryConfig c.config.retryConfig).maxRetries + 1) 0
              { c.circuitBreaker with state := .halfOpen, failures := 0 }).breaker }
        attemptsMade := (callLoop (effectiveRetryConfig c.config.retryConfig)
            (effectiveCircuitConfig c.config.circuitBreaker) attempts times
            ((effectiveRetryConfig c.config.retryConfig).maxRetries + 1) 0
            { c.circuitBreaker with state := .halfOpen, failures := 0 }).attemptsMade
        delays := (callLoop (effectiveRetryConfig c.config.retryConfig)
            (effectiveCircuitConfig c.config.circuitBreaker) attempts times
            ((effectiveRetryConfig c.config.retryConfig).maxRetries + 1) 0
            { c.circuitBreaker with state := .halfOpen, failures := 0 }).delays } ∧
    1 ≤ (callTool store s tool attempts now times).attemptsMade ∧
    (∀ (rc : RetryConfig) (cc : CircuitBreakerConfig) (r a : Nat)
        (cb1 cb2 : CircuitBreaker),
      (callLoop rc cc attempts times r a cb1).result =
        (callLoop rc cc attempts times r a cb2).result ∧
      (callLoop rc cc attempts times r a cb1).attemptsMade =
        (callLoop rc cc attempts times r a cb2).attemptsMade ∧
      (callLoop rc cc attempts times r a cb1).delays =
        (callLoop rc cc attempts times r a cb2).delays) ∧
    (∀ (cc : CircuitBreakerConfig) (t : Nat) (cb : CircuitBreaker),
      cb.state = .opened → (recordFailure cc t cb).state = .opened) := by
  have hpair := gate_probe hst ht
  have hgate : (isCircuitBreakerOpen now c.circuitBreaker).1 = true := by
    rw [hpair]
  have hsnd : (isCircuitBreakerOpen now c.circuitBreaker).2 =
      { c.circuitBreaker with state := .halfOpen, failures := 0 } := by
    rw [hpair]
  refine ⟨hsnd, ?_, ?_, ?_, ?_⟩
  · rw [callTool_proceed tool attempts now times hc hconn hgate, hsnd]
  · rw [callTool_proceed tool attempts now times hc hconn hgate]
    exact callLoop_attempts_pos ..
  · intro rc cc r a cb1 cb2
    exact callLoop_breaker_blind rc cc attempts times r a cb1 cb2
  · intro cc t cb hcb
    unfold recordFailure
    by_cases hth : cc.failureThreshold ≤ cb.failures + 1 <;> simp [hth, hcb]

/-- Witness for C3 (amended): at time 250 the open-until-200 breaker
probes and the successful attempt completes (one attempt made). -/
theorem C3_amended_probe_once_witness :
    1 ≤ (callTool demoStoreOpen "alpha" "t1" (fun _ => .success "ok") 250
      (fun _ => 260)).attemptsMade :=
  (C3_amended_probe_once demoStoreOpen "alpha" "t1" (fun _ => .success "ok") 250
    (fun _ => 260) demoClientOpen (by decide) (by decide) (by decide)
    (by decide)).2.2.1

/-- Claim C4: a successful underlying attempt — at any breaker state the
gate lets through, after any number of prior failed attempts — makes
`callTool` return the underlying result and fully reset the session's
breaker to closed with zeroed count and timestamps. -/
theorem C4_success_resets (store : ClientStore) (s tool : String)
    (attempts : Nat → AttemptOutcome) (now : Nat) (times : Nat → Nat)
    (c : MCPClient) (k : Nat) (v : String)
    (hc : alookup store s = some c) (hconn : c.connected = true)
    (hgate : (isCircuitBreakerOpen now c.circuitBreaker).1 = true)
    (hk : k ≤ (effectiveRetryConfig c.config.retryConfig).maxRetries)
    (hfail : ∀ j, j < k → (attempts j).isFailure = true)
    (hsucc : attempts k = .success v) :
    (callTool store s tool attempts now times).result = .ok v ∧
    alookup (callTool store s tool attempts now times).store s =
      some { c with circuitBreaker := initBreaker } ∧
    (callTool store s tool attempts now times).attemptsMade = k + 1 := by
  rw [callTool_proceed tool attempts now times hc hconn hgate]
  have hres := callLoop_first_success (effectiveRetryConfig c.config.retryConfig)
    (effectiveCircuitConfig c.config.circuitBreaker) attempts times v k
    ((effectiveRetryConfig c.config.retryConfig).maxRetries + 1) 0
    (isCircuitBreakerOpen now c.circuitBreaker).2 (by omega)
    (fun j hj => by rw [Nat.zero_add]; exact hfail j hj)
    (by rw [Nat.zero_add]; exact hsucc)
  refine ⟨?_, ?_, ?_⟩
  · show ((callLoop _ _ _ _ _ _ _).result.mapError CallError.toolCall) = .ok v
    rw [hres.1]
    rfl
  · show alookup (aset store s _) s = _
    rw [hres.2.1, alookup_aset_self]
  · exact hres.2.2

/-- Witness for C4: an immediately successful attempt on the demo
session returns the payload. -/
theorem C4_success_resets_witness :
    (callTool demoStore "alpha" "t1" (fun _ => .success "pong") 0
      (fun _ => 1)).result = .ok "pong" :=
  (C4_success_resets demoStore "alpha" "t1" (fun _ => .success "pong") 0 (fun _ => 1)
    demoClient 0 "pong" (by decide) (by decide) (by decide) (by decide)
    (fun j hj => absurd hj (Nat.not_lt_zero j)) rfl).1

/-- Claim C5: under the session's effective retry policy, the delay
slept after failed attempt i equals
min(retryDelay * backoffMultiplier ^ i, maxDelay) (`backoffDelay`); at
most maxRetries + 1 underlying attempts are performed; and when every
attempt fails, exactly maxRetries + 1 attempts are performed (the
breaker, which may open mid-loop, never cuts the loop short — the loop
ignores it entirely, as the quantification over arbitrary breakers in
the helper lemmas shows). -/
theorem C5_retry_policy (store : ClientStore) (s tool : String)
    (attempts : Nat → AttemptOutcome) (now : Nat) (times : Nat → Nat)
    (c : MCPClient)
    (hc : alookup store s = some c) (hconn : c.connected = true)
    (hgate : (isCircuitBreakerOpen now c.circuitBreaker).1 = true) :
    (callTool store s tool attempts now times).attemptsMade ≤
      (effectiveRetryConfig c.config.retryConfig).maxRetries + 1 ∧
    (callTool store s tool attempts now times).delays =
      (List.range ((callTool store s tool attempts now times).attemptsMade - 1)).map
        (backoffDelay (effectiveRetryConfig c.config.retryConfig)) ∧
    ((∀ i, i ≤ (effectiveRetryConfig c.config.retryConfig).maxRetries →
        (attempts i).isFailure = true) →
      (callTool store s tool attempts now times).attemptsMade =
        (effectiveRetryConfig c.config.retryConfig).maxRetries + 1) := by
  rw [callTool_proceed tool attempts now times hc hconn hgate]
  dsimp only
  refine ⟨callLoop_attempts_le _ _ _ _ _ _ _, ?_, ?_⟩
  · have hd := callLoop_delays_spec (effectiveRetryConfig c.config.retryConfig)
      (effectiveCircuitConfig c.config.circuitBreaker) attempts times
      ((effectiveRetryConfig c.config.retryConfig).maxRetries + 1) 0
      (isCircuitBreakerOpen now c.circuitBreaker).2
    simpa [Nat.zero_add] using hd
  · intro hall
    exact callLoop_all_fail _ _ attempts times _ 0 _
      (fun i hi => by rw [Nat.zero_add]; exact hall i (by omega))

/-- Witness for C5: with the default policy (maxRetries 3) and all
attempts failing, exactly 4 attempts are made. -/
theorem C5_retry_policy_witness :
    (callTool demoStore "alpha" "t1" (fun _ => .failure "down") 0
      (fun i => i)).attemptsMade =
      (effectiveRetryConfig demoClient.config.retryConfig).maxRetries + 1 :=
  (C5_retry_policy demoStore "alpha" "t1" (fun _ => .failure "down") 0 (fun i => i)
    demoClient (by decide) (by decide) (by decide)).2.2 (fun i _ => rfl)

/-- Claim C6: when all maxRetries + 1 underlying attempts fail, the call
surfaces the tool-call error wrapping the message of the LAST recorded
underlying error (not swallowed, not an earlier attempt's). -/
theorem C6_exhaustion_propagates_last (store : ClientStore) (s tool : String)
    (attempts : Nat → AttemptOutcome) (now : Nat) (times : Nat → Nat)
    (c : MCPClient) (msgs : Nat → String)
    (hc : alookup store s = some c) (hconn : c.connected = true)
    (hgate : (isCircuitBreakerOpen now c.circuitBreaker).1 = true)
    (hfail : ∀ i, attempts i = .failure (msgs i)) :
    (callTool store s tool attempts now times).result =
      .error (.toolCall (msgs (effectiveRetryConfig c.config.retryConfig).maxRetries)) := by
  rw [callTool_proceed tool attempts now times hc hconn hgate]
  dsimp only
  have hres := callLoop_last_error (effectiveRetryConfig c.config.retryConfig)
    (effectiveCircuitConfig c.config.circuitBreaker) attempts times msgs
    ((effectiveRetryConfig c.config.retryConfig).maxRetries + 1) 0
    (isCircuitBreakerOpen now c.circuitBreaker).2 (Nat.succ_pos _)
    (fun i _ => by rw [Nat.zero_add]; exact hfail i)
  rw [hres]
  simp [Except.mapError]

/-- Witness for C6: four distinct failure messages; the surfaced error
wraps the message of attempt 3 (the last). -/
theorem C6_exhaustion_propagates_last_witness :
    (callTool demoStore "alpha" "t1" (fun i => .failure (String.append "e" (toString i)))
      0 (fun i => i)).result =
      .error (.toolCall (String.append "e"
        (toString (effectiveRetryConfig demoClient.config.retryConfig).maxRetries))) :=
  C6_exhaustion_propagates_last demoStore "alpha" "t1"
    (fun i => .failure (String.append "e" (toString i))) 0 (fun i => i) demoClient
    (fun i => String.append "e" (toString i)) (by decide) (by decide) (by decide)
    (fun i => rfl)

/-- A valid stdio configuration paired with one missing its command. -/
def badCfg : MCPServerConfig :=
  { name := "b", type := .stdio, command := none, args := [], url := none
    env := [], timeout := none, disabled := false
    retryConfig := none, circuitBreaker := none }

/-- Connect oracle that succeeds on every server with the demo tool. -/
def demoConnect : String → Except String (List ToolDescriptor) :=
  fun _ => .ok [demoTool]

/-- Claim C7: each non-disabled configuration entry is attempted
independently; `initializeClients` is total (no exception escapes), a
failed entry is simply absent from the store, a successful one is
present with its fresh session; absent store entries are likewise absent
from `getServerStatus`. -/
theorem C7_init_isolated (connect : String → Except String (List ToolDescriptor))
    (configs : List (String × MCPServerConfig)) (name : String) (cfg : MCPServerConfig)
    (hnd : (configs.map Prod.fst).Nodup) (hmem : (name, cfg) ∈ configs) :
    alookup (initializeClients connect configs) name =
      (if cfg.disabled = true then none
       else (initializeClient connect name cfg).toOption) ∧
    (∀ n, alookup (initializeClients connect configs) n = none →
      alookup (getServerStatus (initializeClients connect configs)) n = none) := by
  constructor
  · unfold initializeClients
    rw [foldl_initStep_mem connect configs [] name cfg hnd hmem]
    by_cases hd : cfg.disabled = true
    · simp [hd, alookup]
    · simp only [hd, if_false]
      cases initializeClient connect name cfg <;> simp [Except.toOption, alookup]
  · intro n hn
    exact alookup_getServerStatus_none hn

/-- Witness for C7: initializing a valid server `a` together with an
invalid one `b` (stdio without command) leaves `b` absent and `a`
present. -/
theorem C7_init_isolated_witness :
    alookup (initializeClients demoConnect [("a", demoConfig), ("b", badCfg)]) "b"
      = none ∧
    alookup (initializeClients demoConnect [("a", demoConfig), ("b", badCfg)]) "a"
      = some (newSession demoConfig [demoTool]) := by
  constructor
  · rw [(C7_init_isolated demoConnect [("a", demoConfig), ("b", badCfg)] "b" badCfg
      (by decide) (by decide)).1]
    rfl
  · rfl

/-- Claim C8: `disconnectAll` empties the registry — even for sessions
whose transport close throws (`closeThrows`, whose failures are only
logged) — a subsequent `getServerStatus` is empty, and running
`disconnectAll` again on the emptied registry succeeds with no effect. -/
theorem C8_disconnectAll_empties (closeThrows : String → Bool) (store : ClientStore) :
    (disconnectAll closeThrows store).1 = [] ∧
    getServerStatus (disconnectAll closeThrows store).1 = [] ∧
    disconnectAll closeThrows (disconnectAll closeThrows store).1 = ([], []) :=
  ⟨rfl, rfl, rfl⟩

/-- Claim C9: on every reachable breaker state, given resetTimeout > 0:
open implies nextRetryTime > lastFailureTime, and closed implies the
failure count is 0 or strictly below the threshold. -/
theorem C9_breaker_invariant_reachable (cc : CircuitBreakerConfig) (cb : CircuitBreaker)
    (hrt : 0 < cc.resetTimeout) (hr : ReachableBreaker cc cb) :
    breakerInvariant cc cb :=
  (reachable_invariantAux hrt hr).1

/-- Witness for C9: the state after two recorded failures (at times 3
and 5) under the default policy satisfies the invariant. -/
theorem C9_breaker_invariant_reachable_witness :
    breakerInvariant defaultCircuitBreakerConfig
      (recordFailure defaultCircuitBreakerConfig 5
        (recordFailure defaultCircuitBreakerConfig 3 initBreaker)) :=
  C9_breaker_invariant_reachable defaultCircuitBreakerConfig
    (recordFailure defaultCircuitBreakerConfig 5
      (recordFailure defaultCircuitBreakerConfig 3 initBreaker))
    (by decide)
    (ReachableBreaker.fail 5 (ReachableBreaker.fail 3 ReachableBreaker.init))

/-- Claim C10: every session installed in the registry carries
connected = true, every modelled operation preserves this, under it the
not-connected branch of `callTool` is unreachable, and `getServerStatus`
reports connected = true for every server it lists. -/
theorem C10_connected_always (connect : String → Except String (List ToolDescriptor))
    (configs : List (String × MCPServerConfig)) (store : ClientStore)
    (s tool : String) (attempts : Nat → AttemptOutcome) (now : Nat)
    (times : Nat → Nat) :
    AllConnected (initializeClients connect configs) ∧
    (AllConnected store →
      AllConnected (callTool store s tool attempts now times).store) ∧
    (AllConnected store → ∀ n,
      (callTool store s tool attempts now times).result ≠
        .error (.notConnected n)) ∧
    (AllConnected store → ∀ p ∈ getServerStatus store, p.2.connected = true) ∧
    (∀ closeThrows, AllConnected (disconnectAll closeThrows store).1) :=
  ⟨allConnected_foldl connect configs [] allConnected_nil,
   fun hs => callTool_preserves_allConnected tool attempts now times hs,
   fun hs n => callTool_no_notConnected tool attempts now times hs n,
   fun hs => getServerStatus_connected hs,
   fun _ => allConnected_nil⟩

/-- Witness for C10: on the demo registry a failing call never surfaces
the not-connected error. -/
theorem C10_connected_always_witness :
    (callTool demoStore "alpha" "t1" (fun _ => .failure "e") 0 (fun _ => 1)).result ≠
      .error (.notConnected "alpha") :=
  (C10_connected_always demoConnect [] demoStore "alpha" "t1" (fun _ => .failure "e")
    0 (fun _ => 1)).2.2.1 (by unfold AllConnected; decide) "alpha"

end MCP
